import Mathlib

/-!
# Kangal proxy API server: `pkg/proxy/server.go`

A verification development for `RunServer`, the function that wires the
Kangal proxy: it builds the backend registry and the proxy handler, sets up
the chi router (middlewares and routes) and runs the HTTP server.

The body of `RunServer` is embedded as a sequence of statements executed on
an explicit state; the chi route patterns are interpreted by a segment
matcher that follows the tree search of chi; `http.Redirect` is followed
through `url.Parse` and `path.Clean`; the facade operations that live outside
`server.go` are modelled from the specification and marked as such.
-/

namespace Kangal

/-! ## Go values used by `RunServer` -/

/-- Go error values: a plain error, or one built by `fmt.Errorf` with a
format `pfx` followed by the verb `%w`. -/
inductive GoError where
  | plain (msg : String)
  | wrapf (pfx : String) (inner : GoError)
  deriving DecidableEq, Repr

/-- Method `Error()` of a Go error. -/
def GoError.Error : GoError → String
  | .plain msg => msg
  | .wrapf pfx inner => pfx ++ inner.Error

/-- Method `Unwrap()`, what `errors.Unwrap` returns. -/
def GoError.Unwrap : GoError → Option GoError
  | .plain _ => none
  | .wrapf _ inner => some inner

/-- HTTP methods known to the chi router (its `mALL` mask). -/
inductive Method where
  | CONNECT | DELETE | GET | HEAD | OPTIONS | PATCH | POST | PUT | TRACE
  deriving DecidableEq, Repr

/-- Method set of a registration: `r.Handle` registers every method,
`r.Method`, `r.Get` and `r.Put` register one. -/
inductive MethodSpec where
  | all
  | only (m : Method)
  deriving DecidableEq, Repr

/-- Whether a registration answers method `m`. -/
def MethodSpec.accepts : MethodSpec → Method → Bool
  | .all, _ => true
  | .only m', m => decide (m' = m)

/-- The methods a registration covers. -/
def MethodSpec.expand : MethodSpec → List Method
  | .all => [.CONNECT, .DELETE, .GET, .HEAD, .OPTIONS, .PATCH, .POST, .PUT, .TRACE]
  | .only m => [m]

/-! ## Route patterns -/

/-- Split a character list at every slash; the result is never empty. -/
def splitSlash : List Char → List (List Char)
  | [] => [[]]
  | c :: cs =>
    if c = '/' then [] :: splitSlash cs
    else
      match splitSlash cs with
      | [] => [[c]]
      | s :: ss => (c :: s) :: ss

/-- The segments of an absolute path: the text after the leading slash, split
at slashes. A path that does not start with a slash has none. -/
def pathSegs (p : String) : Option (List (List Char)) :=
  match p.data with
  | '/' :: rest => some (splitSlash rest)
  | _ => none

/-- One segment of a chi pattern. -/
inductive Seg where
  | lit (s : List Char)
  | param (name : List Char)
  | wild
  deriving DecidableEq, Repr

/-- Read a pattern segment: `*` is the catch-all, `{name}` a named parameter,
anything else literal text. -/
def parseSeg (s : List Char) : Seg :=
  match s with
  | ['*'] => .wild
  | '{' :: rest =>
    if rest.getLast? = some '}' then .param rest.dropLast else .lit s
  | _ => .lit s

/-- Segments of a route pattern; chi rejects a pattern without a leading slash. -/
def parsePattern (p : String) : Option (List Seg) :=
  (pathSegs p).map (fun segs => segs.map parseSeg)

/-- URL parameters bound by a match, in pattern order. -/
abbrev Params := List (String × String)

/-- Join the remainder segments of a catch-all back into text. -/
def joinSegs : List (List Char) → List Char
  | [] => []
  | [s] => s
  | s :: t :: rest => s ++ '/' :: joinSegs (t :: rest)

/-- Match pattern segments against path segments, as the chi tree search
does: a literal matches the equal segment; `{name}` matches exactly one
segment, up to the next slash, and binds it, and it refuses the segment only
when nothing at all is left of the path, so that an empty segment is matched
when a slash follows it; a trailing `*` matches whatever remains after the
slash before it. -/
def matchSegs : List Seg → List (List Char) → Option Params
  | [], [] => some []
  | [.wild], x :: xs => some [("*", String.mk (joinSegs (x :: xs)))]
  | .lit s :: ps, x :: xs => if x = s then matchSegs ps xs else none
  | .param n :: ps, x :: xs =>
    if x ≠ [] ∨ xs ≠ [] then
      (matchSegs ps xs).map (fun bs => (String.mk n, String.mk x) :: bs)
    else none
  | _, _ => none

/-- Match a route pattern against a request path. -/
def matchPattern (pattern path : String) : Option Params :=
  match parsePattern pattern, pathSegs path with
  | some ps, some xs => matchSegs ps xs
  | _, _ => none

/-! ## Collaborators and configuration -/

/-- Handle of a `*zap.Logger`. -/
structure Logger where
  ref : Nat
  deriving DecidableEq, Repr

/-- Handle of a `*kube.Client`, the cluster-state accessor. -/
structure KubeClient where
  ref : Nat
  deriving DecidableEq, Repr

/-- Handle of the OpenTelemetry Prometheus exporter. -/
structure Exporter where
  ref : Nat
  deriving DecidableEq, Repr

/-- Handle of a `*MetricsReporter`. -/
structure MetricsReporter where
  ref : Nat
  deriving DecidableEq, Repr

/-- Dependencies of the proxy API server (`type Runner struct`). -/
structure Runner where
  Exporter : Exporter
  KubeClient : KubeClient
  Logger : Logger
  StatsReporter : MetricsReporter
  deriving DecidableEq, Repr

/-- Value of the `OpenAPI` field of `Config`; its declaration is outside
`server.go`, and `RunServer` only passes it on. -/
structure OpenAPIConfig where
  ref : Nat
  deriving DecidableEq, Repr

/-- Modelled from the spec: the declaration of `Config` is not in `server.go`.
The first five fields are the ones `RunServer` reads (`cfg.MaxLoadTestsRun`,
`cfg.MaxListLimit`, `cfg.AllowedCustomImages`, `cfg.OpenAPI`, `cfg.HTTPPort`);
counts and sizes are naturals and the image allow-list is a list of image
names, as the spec describes them. The last three fields are the rest of the
configuration surface the spec lists (per-backend worker-count bounds,
scheduling grace window, run deadline); `RunServer` reads none of them. -/
structure Config where
  MaxLoadTestsRun : Nat
  MaxListLimit : Nat
  AllowedCustomImages : List String
  OpenAPI : OpenAPIConfig
  HTTPPort : Int
  WorkerCountBounds : List (String × Nat × Nat)
  SchedulingGraceWindow : Nat
  RunDeadline : Nat
  deriving DecidableEq, Repr

/-- Modelled from the spec: a backend registration entry (identifier and the
worker-count range it supports); the `backends` package is outside `server.go`. -/
structure BackendDescriptor where
  identifier : String
  minWorkers : Nat
  maxWorkers : Nat
  deriving DecidableEq, Repr

/-- Modelled from the spec: the backend registry, holding the logger it was
built with and its registered backends. -/
structure Registry where
  logger : Option Logger
  backends : List BackendDescriptor
  deriving DecidableEq, Repr

/-- Functional options of `backends.New`; `RunServer` uses `backends.WithLogger`. -/
inductive RegistryOption where
  | WithLogger (l : Logger)
  deriving DecidableEq, Repr

/-- Apply one option to a registry under construction. -/
def RegistryOption.apply : RegistryOption → Registry → Registry
  | .WithLogger l, reg => { reg with logger := some l }

/-- Modelled from the spec: `backends.New` populates the registry from the
compiled-in set of supported tools (`compiled`, declared outside `server.go`)
and applies the options it is given. -/
def backends.New (compiled : List BackendDescriptor) (opts : List RegistryOption) : Registry :=
  opts.foldl (fun reg o => o.apply reg) { logger := none, backends := compiled }

/-- Modelled from the spec: `Resolve(identifier)`, absent when the identifier
is not registered (`UnknownBackend`). -/
def Registry.Resolve (reg : Registry) (identifier : String) : Option BackendDescriptor :=
  reg.backends.find? (fun d => d.identifier = identifier)

/-- Modelled from the spec: `Register`, which fails with `DuplicateBackend`
(here `none`) when the identifier is already registered. -/
def Registry.Register (reg : Registry) (d : BackendDescriptor) : Option Registry :=
  match reg.Resolve d.identifier with
  | some _ => none
  | none => some { reg with backends := reg.backends ++ [d] }

/-- Modelled from the spec: the proxy handler built by `NewProxy`, which is
declared outside `server.go`. It keeps the five arguments `RunServer` passes,
in call order; `registry` is a reference (an index into the registry objects
of the server state). -/
structure Proxy where
  maxLoadTestsRun : Nat
  registry : Nat
  kubeClient : KubeClient
  maxListLimit : Nat
  allowedCustomImages : List String
  deriving DecidableEq, Repr

/-- Modelled from the spec: `NewProxy` stores its arguments unchanged. -/
def NewProxy (maxLoadTestsRun : Nat) (registry : Nat) (kubeClient : KubeClient)
    (maxListLimit : Nat) (allowedCustomImages : List String) : Proxy :=
  { maxLoadTestsRun, registry, kubeClient, maxListLimit, allowedCustomImages }

/-! ## Handlers, middlewares and the router -/

/-- The handler methods of the proxy that `RunServer` registers. -/
inductive ProxyOp where
  | List | Create | Get | Delete | GetLogs
  deriving DecidableEq, Repr

/-- The handlers `RunServer` registers. `proxyMethod p op` is the method value
`proxyHandler.op`; `otelhttp h name` is `otelhttp.NewHandler(h, name)`. -/
inductive Handler where
  | LivenessHandler (name : String)
  | promhttpHandler
  | proxyMethod (p : Proxy) (op : ProxyOp)
  | otelhttp (inner : Handler) (operation : String)
  | OpenAPIUIHandler (c : OpenAPIConfig)
  | OpenAPISpecHandler (c : OpenAPIConfig)
  | reportRedirect
  | reportShowHandler
  | reportPersistHandler (k : KubeClient) (l : Logger)
  deriving DecidableEq, Repr

/-- The middlewares `RunServer` installs with `r.Use`. -/
inductive Middleware where
  | RequestID
  | RealIP
  | Logger (l : Logger)
  | RequestLogger
  | Recovery
  | SetContentTypeJSON
  | OpenAPISpecCORS (c : OpenAPIConfig)
  deriving DecidableEq, Repr

/-- One registration of the router. -/
structure Route where
  methods : MethodSpec
  pattern : String
  handler : Handler
  deriving DecidableEq, Repr

/-- The chi router as `RunServer` uses it: middlewares and routes in
registration order. -/
structure Router where
  middlewares : List Middleware
  routes : List Route
  deriving DecidableEq, Repr

/-- Result of `chi.NewRouter()`. -/
def Router.new : Router := { middlewares := [], routes := [] }

/-- Whether a route answers a request: its method set holds the method and
its pattern matches the path. -/
def Route.matches (rt : Route) (m : Method) (path : String) : Bool :=
  rt.methods.accepts m && (matchPattern rt.pattern path).isSome

/-- The handler a request is dispatched to, with the URL parameters bound by
its pattern: the first registration that answers the request. -/
def Router.dispatch (r : Router) (m : Method) (path : String) : Option (Handler × Params) :=
  r.routes.findSome? (fun rt =>
    if rt.methods.accepts m then (matchPattern rt.pattern path).map (fun bs => (rt.handler, bs))
    else none)

/-- The (method, pattern) pairs registered on a router. -/
def Router.registrations (r : Router) : List (Method × String) :=
  r.routes.flatMap (fun rt => rt.methods.expand.map (fun m => (m, rt.pattern)))

/-- The methods registered on one pattern. -/
def Router.methodsOn (r : Router) (pattern : String) : List Method :=
  (r.routes.filter (fun rt => rt.pattern = pattern)).flatMap (fun rt => rt.methods.expand)

/-! ## Requests and the redirect of the report route -/

/-- The fields of the request URL that the router and the redirect closure
read. `Path` is the decoded path; `RawPath` is the encoded path, set only
when it differs from the default encoding of `Path`. -/
structure URL where
  Host : String
  Path : String
  RawPath : String
  deriving DecidableEq, Repr

/-- The path chi routes on: `r.URL.RawPath` when it is set, else `r.URL.Path`,
and `/` when both are empty. -/
def routePath (u : URL) : String :=
  if u.RawPath ≠ "" then u.RawPath else if u.Path ≠ "" then u.Path else "/"

/-- Cut a text before the first occurrence of `sep`; the second part starts
with `sep`, or is empty when `sep` does not occur. -/
def cutAt (sep : Char) : List Char → List Char × List Char
  | [] => ([], [])
  | c :: cs =>
    if c = sep then ([], c :: cs)
    else ((c :: (cutAt sep cs).1), (cutAt sep cs).2)

/-- Hexadecimal digit, as `ishex` of `net/url`. -/
def isHex (c : Char) : Bool :=
  ('0' ≤ c && c ≤ '9') || ('a' ≤ c && c ≤ 'f') || ('A' ≤ c && c ≤ 'F')

/-- Whether every percent sign is followed by two hexadecimal digits, the
check `unescape` of `net/url` makes on a path, fragment or user information. -/
def validEscapes : List Char → Bool
  | [] => true
  | '%' :: a :: b :: rest => isHex a && isHex b && validEscapes rest
  | '%' :: _ => false
  | _ :: rest => validEscapes rest

/-- Whether a text has an ASCII control character (`stringContainsCTLByte`). -/
def stringContainsCTLByte (s : List Char) : Bool :=
  s.any (fun c => c.toNat < 32 || c.toNat = 127)

/-- The scheme split of `net/url` (`getScheme`): the scheme and the rest, with
an empty scheme when the text has none, and `none` for the error of a text
that starts with a colon. `i` counts the characters read so far. -/
def getScheme (rawURL : List Char) : Nat → List Char → Option (List Char × List Char)
  | _, [] => some ([], rawURL)
  | i, c :: cs =>
    if c.isAlpha then getScheme rawURL (i + 1) cs
    else if c.isDigit || c = '+' || c = '-' || c = '.' then
      if i = 0 then some ([], rawURL) else getScheme rawURL (i + 1) cs
    else if c = ':' then
      if i = 0 then none else some (rawURL.take i, cs)
    else some ([], rawURL)

/-- The characters `net/url` accepts in user information (`validUserinfo`);
character 39 is the apostrophe. -/
def validUserinfo (s : List Char) : Bool :=
  s.all (fun c => c.isAlphanum || "-._:~!$&()*+,;=%@".data.contains c || c.toNat = 39)

/-- Whether an authority parses without error to an empty host: it is empty,
or it is valid user information followed by `@` and nothing. -/
def emptyHostAuthority (authority : List Char) : Bool :=
  authority = [] ||
    (authority.getLast? = some '@' && validUserinfo authority.dropLast &&
      validEscapes authority.dropLast)

/-- What `http.Redirect` reads of `url.Parse(url)`: whether it succeeds with
an empty scheme and an empty host. The fragment is cut first; a control
character, a leading colon, a colon in the first segment of a rootless path or
an invalid escape is an error; a scheme, or a host after `//`, makes the
reference absolute. -/
def relativeRef (rawURL : String) : Bool :=
  let u := (cutAt '#' rawURL.data).1
  let frag := (cutAt '#' rawURL.data).2.drop 1
  if stringContainsCTLByte u then false
  else if u = ['*'] then validEscapes frag
  else
    match getScheme u 0 u with
    | none => false
    | some (scheme, rest0) =>
      if scheme ≠ [] then false
      else
        let rest := (cutAt '?' rest0).1
        (match rest with
          | '/' :: '/' :: '/' :: _ => validEscapes rest
          | '/' :: '/' :: auth =>
            emptyHostAuthority (cutAt '/' auth).1 && validEscapes (cutAt '/' auth).2
          | '/' :: _ => validEscapes rest
          | _ => !((cutAt '/' rest).1.contains ':') && validEscapes rest) &&
        validEscapes frag

/-- The segment loop of `path.Clean`: empty and `.` segments are dropped, `..`
removes the segment before it when there is one to remove and is kept at the
start of an unrooted path, other segments are kept. `out` is the output in
reverse and `dotdot` the number of leading `..` segments that stay. -/
def cleanSegs (rooted : Bool) : List (List Char) → List (List Char) → Nat → List (List Char)
  | [], out, _ => out.reverse
  | seg :: rest, out, dotdot =>
    if seg = [] ∨ seg = ['.'] then cleanSegs rooted rest out dotdot
    else if seg = ['.', '.'] then
      if out.length > dotdot then cleanSegs rooted rest out.tail dotdot
      else if rooted then cleanSegs rooted rest out dotdot
      else cleanSegs rooted rest (seg :: out) (out.length + 1)
    else cleanSegs rooted rest (seg :: out) dotdot

/-- Function `path.Clean`. -/
def pathClean (p : List Char) : List Char :=
  match p with
  | [] => ['.']
  | c :: _ =>
    if c = '/' then '/' :: joinSegs (cleanSegs true (splitSlash p) [] 0)
    else
      match cleanSegs false (splitSlash p) [] 0 with
      | [] => ['.']
      | out => joinSegs out

/-- The directory part `path.Split` returns: the text up to and including the
last slash. -/
def splitDir : List Char → List Char
  | [] => []
  | c :: cs => if '/' ∈ cs then c :: splitDir cs else if c = '/' then [c] else []

/-- Function `hexEscapeNonASCII` of `net/http`: every byte of a non-ASCII
character becomes a percent sign and its hexadecimal value. -/
def hexEscapeNonASCII (s : List Char) : List Char :=
  s.flatMap (fun c =>
    if c.toNat < 128 then [c]
    else (String.utf8EncodeChar c).flatMap (fun b => '%' :: Nat.toDigits 16 b.toNat))

/-- The parts of the answer the redirect sets: the status code and the
`Location` header. -/
structure Response where
  code : Nat
  Location : String
  deriving DecidableEq, Repr

/-- Function `http.Redirect(w, r, url, code)`, for the request URL `u`. A
target that parses to a relative reference is made absolute against the
directory of the request path when it does not start with a slash, and its
path part, before the query, is cleaned with the trailing slash preserved;
the `Location` header is the hex-escaped result and the status is `code`. -/
def Redirect (u : URL) (url : String) (code : Nat) : Response :=
  let target : List Char :=
    if relativeRef url then
      let oldpath := if u.Path = "" then ['/'] else u.Path.data
      let url1 :=
        match url.data with
        | '/' :: _ => url.data
        | _ => splitDir oldpath ++ url.data
      let url2 := (cutAt '?' url1).1
      let query := (cutAt '?' url1).2
      let url3 := pathClean url2
      let url4 :=
        if url2.getLast? = some '/' ∧ url3.getLast? ≠ some '/' then url3 ++ ['/'] else url3
      url4 ++ query
    else url.data
  { code := code, Location := String.mk (hexEscapeNonASCII target) }

/-- Constant `http.StatusMovedPermanently`. -/
def StatusMovedPermanently : Nat := 301

/-- The closure registered on `GET /load-test/{id}/report`:
`url := fmt.Sprintf("%s/", r.URL.Host+r.URL.Path)` and then
`http.Redirect(w, r, url, http.StatusMovedPermanently)`. -/
def reportRedirect (u : URL) : Response :=
  Redirect u ((u.Host ++ u.Path) ++ "/") StatusMovedPermanently

/-! ## The body of `RunServer` as statements on an explicit state -/

/-- What lies outside the program: the compiled-in backends `backends.New`
starts from, and the value `http.ListenAndServe` returns. -/
structure Env where
  compiled : List BackendDescriptor
  serveResult : Option GoError
  deriving DecidableEq, Repr

/-- The local variables of `RunServer` and the registry objects allocated so
far. `registry` holds a reference into `registries`; `proxyHandler`, `r` and
`address` are unset until their statement runs; `err` is `none` before
`http.ListenAndServe` returns and `returned` is `none` before `RunServer`
returns. -/
structure ServerState where
  registries : List Registry
  registry : Option Nat
  proxyHandler : Option Proxy
  r : Option Router
  address : Option String
  infoLog : List (String × String)
  serving : Option (String × Router)
  err : Option (Option GoError)
  returned : Option (Option GoError)
  deriving DecidableEq, Repr

/-- State at entry of `RunServer`. -/
def ServerState.init : ServerState :=
  { registries := [], registry := none, proxyHandler := none, r := none, address := none,
    infoLog := [], serving := none, err := none, returned := none }

/-- A handler argument of a route statement: a handler that does not mention
`proxyHandler`, the method value `proxyHandler.op`, or that method value
wrapped by `otelhttp.NewHandler(http.HandlerFunc(proxyHandler.op), operation)`. -/
inductive HandlerExpr where
  | value (h : Handler)
  | method (op : ProxyOp)
  | otelMethod (op : ProxyOp) (operation : String)
  deriving DecidableEq, Repr

/-- Evaluate a handler argument; `proxyHandler` must be set. -/
def HandlerExpr.eval (st : ServerState) : HandlerExpr → Option Handler
  | .value h => some h
  | .method op => st.proxyHandler.map (fun p => Handler.proxyMethod p op)
  | .otelMethod op operation =>
    st.proxyHandler.map (fun p => Handler.otelhttp (Handler.proxyMethod p op) operation)

/-- Statements of `RunServer`. `register` is the registry mutation of the
spec (`Register`); the body of `RunServer` has no such statement. -/
inductive Stmt where
  | newRegistry (opts : List RegistryOption)
  | newProxy (maxLoadTestsRun : Nat) (kubeClient : KubeClient) (maxListLimit : Nat)
      (allowedCustomImages : List String)
  | newRouter
  | use (mw : Middleware)
  | route (methods : MethodSpec) (pattern : String) (h : HandlerExpr)
  | setAddress (port : Int)
  | logInfo (msg : String)
  | listenAndServe
  | returnResult
  | register (d : BackendDescriptor)
  deriving DecidableEq, Repr

/-- Execute one statement; `none` when a variable it reads is unset or a
registration fails. -/
def exec (env : Env) : Stmt → ServerState → Option ServerState
  | .newRegistry opts, st =>
    some { st with
      registries := st.registries ++ [backends.New env.compiled opts]
      registry := some st.registries.length }
  | .newProxy maxRun kube maxList allowed, st =>
    st.registry.map (fun reg =>
      { st with proxyHandler := some (NewProxy maxRun reg kube maxList allowed) })
  | .newRouter, st => some { st with r := some Router.new }
  | .use mw, st =>
    st.r.map (fun r => { st with r := some { r with middlewares := r.middlewares ++ [mw] } })
  | .route methods pattern h, st =>
    match st.r, h.eval st with
    | some r, some handler =>
      some { st with r := some { r with routes := r.routes ++ [⟨methods, pattern, handler⟩] } }
    | _, _ => none
  | .setAddress port, st => some { st with address := some (":" ++ toString port) }
  | .logInfo msg, st =>
    st.address.map (fun a => { st with infoLog := st.infoLog ++ [(msg, a)] })
  | .listenAndServe, st =>
    match st.address, st.r with
    | some a, some r => some { st with serving := some (a, r), err := some env.serveResult }
    | _, _ => none
  | .returnResult, st =>
    st.err.map (fun err =>
      { st with returned := some (
          match err with
          | some e => some (GoError.wrapf "failed to run HTTP server: " e)
          | none => none) })
  | .register d, st =>
    match st.registry with
    | none => none
    | some ref =>
      match st.registries.get? ref with
      | none => none
      | some reg =>
        (reg.Register d).map (fun reg' => { st with registries := st.registries.set ref reg' })

/-- Execute statements in order. -/
def run (env : Env) : List Stmt → ServerState → Option ServerState
  | [], st => some st
  | s :: rest, st =>
    match exec env s st with
    | some st' => run env rest st'
    | none => none

/-- Variable `loadtestRoute`. -/
def loadtestRoute : String := "/load-test"

/-- Variable `loadtestRouteWithID`, `fmt.Sprintf("%s/{id}", loadtestRoute)`. -/
def loadtestRouteWithID : String := loadtestRoute ++ "/{id}"

/-- The statements of `RunServer(cfg, rr)`, in source order. -/
def RunServerBody (cfg : Config) (rr : Runner) : List Stmt :=
  [ .newRegistry [.WithLogger rr.Logger],
    .newProxy cfg.MaxLoadTestsRun rr.KubeClient cfg.MaxListLimit cfg.AllowedCustomImages,
    .newRouter,
    .use .RequestID,
    .use .RealIP,
    .use (.Logger rr.Logger),
    .use .RequestLogger,
    .use .Recovery,
    .use .SetContentTypeJSON,
    .use (.OpenAPISpecCORS cfg.OpenAPI),
    .route (.only .GET) "/status" (.value (.LivenessHandler "Kangal Proxy")),
    .route .all "/metrics" (.value .promhttpHandler),
    .route (.only .GET) loadtestRoute (.otelMethod .List loadtestRoute),
    .route (.only .POST) loadtestRoute (.otelMethod .Create loadtestRoute),
    .route (.only .GET) loadtestRouteWithID (.otelMethod .Get loadtestRouteWithID),
    .route (.only .DELETE) loadtestRouteWithID (.otelMethod .Delete loadtestRouteWithID),
    .route (.only .GET) "/" (.value (.OpenAPIUIHandler cfg.OpenAPI)),
    .route (.only .GET) "/openapi" (.value (.OpenAPISpecHandler cfg.OpenAPI)),
    .route (.only .GET) "/load-test/{id}/logs" (.method .GetLogs),
    .route (.only .GET) "/load-test/{id}/logs/{worker}" (.method .GetLogs),
    .route (.only .GET) "/load-test/{id}/report" (.value .reportRedirect),
    .route (.only .GET) "/load-test/{id}/report/*" (.value .reportShowHandler),
    .route (.only .PUT) "/load-test/{id}/report"
      (.value (.reportPersistHandler rr.KubeClient rr.Logger)),
    .setAddress cfg.HTTPPort,
    .logInfo "Running HTTP server...",
    .listenAndServe,
    .returnResult ]

/-- State of `RunServer` after its first `k` statements. -/
def stateAfter (cfg : Config) (rr : Runner) (env : Env) (k : Nat) : Option ServerState :=
  run env ((RunServerBody cfg rr).take k) ServerState.init

/-- State of `RunServer` when it returns. -/
def finalState (cfg : Config) (rr : Runner) (env : Env) : Option ServerState :=
  run env (RunServerBody cfg rr) ServerState.init

/-- The value `RunServer(cfg, rr)` returns: `some none` for a nil error,
`some (some e)` for the error `e`, and `none` if the body did not run to its
return. -/
def RunServer (cfg : Config) (rr : Runner) (env : Env) : Option (Option GoError) :=
  (finalState cfg rr env).bind (fun st => st.returned)

/-- The proxy handler `RunServer(cfg, rr)` builds. -/
def builtProxy (cfg : Config) (rr : Runner) : Proxy :=
  NewProxy cfg.MaxLoadTestsRun 0 rr.KubeClient cfg.MaxListLimit cfg.AllowedCustomImages

/-- The route table `RunServer(cfg, rr)` builds, in registration order. -/
def builtRoutes (cfg : Config) (rr : Runner) : List Route :=
  [ ⟨.only .GET, "/status", .LivenessHandler "Kangal Proxy"⟩,
    ⟨.all, "/metrics", .promhttpHandler⟩,
    ⟨.only .GET, "/load-test", .otelhttp (.proxyMethod (builtProxy cfg rr) .List) "/load-test"⟩,
    ⟨.only .POST, "/load-test",
      .otelhttp (.proxyMethod (builtProxy cfg rr) .Create) "/load-test"⟩,
    ⟨.only .GET, "/load-test/{id}",
      .otelhttp (.proxyMethod (builtProxy cfg rr) .Get) "/load-test/{id}"⟩,
    ⟨.only .DELETE, "/load-test/{id}",
      .otelhttp (.proxyMethod (builtProxy cfg rr) .Delete) "/load-test/{id}"⟩,
    ⟨.only .GET, "/", .OpenAPIUIHandler cfg.OpenAPI⟩,
    ⟨.only .GET, "/openapi", .OpenAPISpecHandler cfg.OpenAPI⟩,
    ⟨.only .GET, "/load-test/{id}/logs", .proxyMethod (builtProxy cfg rr) .GetLogs⟩,
    ⟨.only .GET, "/load-test/{id}/logs/{worker}", .proxyMethod (builtProxy cfg rr) .GetLogs⟩,
    ⟨.only .GET, "/load-test/{id}/report", .reportRedirect⟩,
    ⟨.only .GET, "/load-test/{id}/report/*", .reportShowHandler⟩,
    ⟨.only .PUT, "/load-test/{id}/report", .reportPersistHandler rr.KubeClient rr.Logger⟩ ]

/-- The route table of `RunServer(cfg, rr)` with each pattern read into its
segments. -/
def builtSegs (cfg : Config) (rr : Runner) : List (MethodSpec × List Seg × Handler) :=
  [ (.only .GET, [.lit "status".data], .LivenessHandler "Kangal Proxy"),
    (.all, [.lit "metrics".data], .promhttpHandler),
    (.only .GET, [.lit "load-test".data],
      .otelhttp (.proxyMethod (builtProxy cfg rr) .List) "/load-test"),
    (.only .POST, [.lit "load-test".data],
      .otelhttp (.proxyMethod (builtProxy cfg rr) .Create) "/load-test"),
    (.only .GET, [.lit "load-test".data, .param "id".data],
      .otelhttp (.proxyMethod (builtProxy cfg rr) .Get) "/load-test/{id}"),
    (.only .DELETE, [.lit "load-test".data, .param "id".data],
      .otelhttp (.proxyMethod (builtProxy cfg rr) .Delete) "/load-test/{id}"),
    (.only .GET, [.lit []], .OpenAPIUIHandler cfg.OpenAPI),
    (.only .GET, [.lit "openapi".data], .OpenAPISpecHandler cfg.OpenAPI),
    (.only .GET, [.lit "load-test".data, .param "id".data, .lit "logs".data],
      .proxyMethod (builtProxy cfg rr) .GetLogs),
    (.only .GET, [.lit "load-test".data, .param "id".data, .lit "logs".data,
        .param "worker".data], .proxyMethod (builtProxy cfg rr) .GetLogs),
    (.only .GET, [.lit "load-test".data, .param "id".data, .lit "report".data],
      .reportRedirect),
    (.only .GET, [.lit "load-test".data, .param "id".data, .lit "report".data, .wild],
      .reportShowHandler),
    (.only .PUT, [.lit "load-test".data, .param "id".data, .lit "report".data],
      .reportPersistHandler rr.KubeClient rr.Logger) ]

/-- What `RunServer` has built when it returns: the registry objects
allocated, the reference held by its variable `registry`, the proxy handler
and the router. -/
structure Built where
  registries : List Registry
  registry : Nat
  proxyHandler : Proxy
  r : Router
  deriving DecidableEq, Repr

/-- The registry, handler and router of `RunServer(cfg, rr)` at its return. -/
def built (cfg : Config) (rr : Runner) (env : Env) : Option Built :=
  match finalState cfg rr env with
  | none => none
  | some st =>
    match st.registry, st.proxyHandler, st.r with
    | some ref, some p, some r =>
      some { registries := st.registries, registry := ref, proxyHandler := p, r := r }
    | _, _, _ => none

/-- The registry object a reference points to. -/
def Built.deref (b : Built) (ref : Nat) : Option Registry := b.registries.get? ref

/-- A value of a path segment: not empty and without a slash. -/
def IsSegment (s : String) : Prop := s.data ≠ [] ∧ '/' ∉ s.data

instance (s : String) : Decidable (IsSegment s) := by
  unfold IsSegment; exact inferInstance

/-- An unreserved URL character: an ASCII letter or digit, `-`, `.`, `_`
or `~`. -/
def isUnreserved (c : Char) : Bool :=
  (65 ≤ c.toNat && c.toNat ≤ 90) || (97 ≤ c.toNat && c.toNat ≤ 122) ||
    (48 ≤ c.toNat && c.toNat ≤ 57) || c.toNat = 45 || c.toNat = 46 || c.toNat = 95 ||
    c.toNat = 126

/-- A path segment of unreserved URL characters other than `.` and `..`: it
reads the same encoded and decoded, and `path.Clean` keeps it. -/
def IsPlainSegment (s : String) : Prop :=
  s.data ≠ [] ∧ s.data.all isUnreserved = true ∧ s.data ≠ ['.'] ∧ s.data ≠ ['.', '.']

instance (s : String) : Decidable (IsPlainSegment s) := by
  unfold IsPlainSegment; exact inferInstance

/-! ## The facade operations behind the handlers (outside `server.go`) -/

/-- Modelled from the spec: the lifecycle phase of a load test. -/
inductive Phase where
  | Pending | Running | Errored | Finished
  deriving DecidableEq, Repr

/-- Modelled from the spec: the client-submitted `LoadTestSpec`. -/
structure LoadTestSpec where
  backendType : String
  workers : Nat
  script : String
  imageOverride : Option String
  tags : List (String × String)
  deriving DecidableEq, Repr

/-- Modelled from the spec: a `LoadTest` record as the cluster-state accessor
reports it, with the phase derived at the time of the query. -/
structure LoadTest where
  id : Nat
  spec : LoadTestSpec
  phase : Phase
  createdAt : Nat
  deriving DecidableEq, Repr

/-- Modelled from the spec: the cluster state a request observes: the load
tests present, the next free identifier and the current time. -/
structure Cluster where
  loadTests : List LoadTest
  nextId : Nat
  now : Nat
  deriving DecidableEq, Repr

/-- Modelled from the spec: `ActiveCount`, the number of load tests in phase
`Pending` or `Running`, recomputed from the cluster state. -/
def ActiveCount (cl : Cluster) : Nat :=
  cl.loadTests.countP (fun t => t.phase = .Pending || t.phase = .Running)

/-- Modelled from the spec: the error taxonomy of the facade. -/
inductive FacadeError where
  | ValidationError | CapacityExceeded | InvalidSpec | NotFound
  deriving DecidableEq, Repr

/-- Modelled from the spec: the admission controller of section 4.2, its gates
in order: the backend type resolves in the registry, an image override is in
the allow-list, and the active count is below the maximum. -/
def Admission (p : Proxy) (reg : Registry) (cl : Cluster) (spec : LoadTestSpec) :
    Except FacadeError BackendDescriptor :=
  match reg.Resolve spec.backendType with
  | none => .error .ValidationError
  | some d =>
    if (match spec.imageOverride with
        | some img => decide (img ∈ p.allowedCustomImages)
        | none => true) = false then .error .ValidationError
    else if ActiveCount cl ≥ p.maxLoadTestsRun then .error .CapacityExceeded
    else .ok d

/-- Modelled from the spec: the workload builder of section 4.3, which fails
with `InvalidSpec` when the worker count is outside the range of the backend
or the script is missing; the workload is kept as the record to submit. -/
def Build (d : BackendDescriptor) (id : Nat) (now : Nat) (spec : LoadTestSpec) :
    Except FacadeError LoadTest :=
  if spec.workers < d.minWorkers ∨ d.maxWorkers < spec.workers ∨ spec.script = "" then
    .error .InvalidSpec
  else .ok { id := id, spec := spec, phase := .Pending, createdAt := now }

/-- Modelled from the spec: `Create` of section 4.5, the handler behind
`proxyHandler.Create`: admission, then a fresh identifier, the workload
builder, the submission to the cluster, and the identifier with phase
`Pending` as the result. -/
def Proxy.serveCreate (p : Proxy) (reg : Registry) (cl : Cluster) (spec : LoadTestSpec) :
    Except FacadeError (Cluster × Nat × Phase) :=
  match Admission p reg cl spec with
  | .error e => .error e
  | .ok d =>
    match Build d cl.nextId cl.now spec with
    | .error e => .error e
    | .ok t =>
      .ok ({ cl with loadTests := cl.loadTests ++ [t], nextId := cl.nextId + 1 }, t.id, t.phase)

/-- Modelled from the spec: a request has no validation failure other than
capacity: its backend type is registered, its image override (if any) is
allow-listed, its worker count is in the range of the backend and its script
is present. -/
def otherwiseValid (reg : Registry) (allowed : List String) (spec : LoadTestSpec) : Bool :=
  match reg.Resolve spec.backendType with
  | none => false
  | some d =>
    (match spec.imageOverride with
      | some img => decide (img ∈ allowed)
      | none => true) &&
    decide (d.minWorkers ≤ spec.workers) && decide (spec.workers ≤ d.maxWorkers) &&
    decide (spec.script ≠ "")

/-- Insert a load test into a list ordered by creation time, before the
first later-or-equal one. -/
def insertByCreation (t : LoadTest) : List LoadTest → List LoadTest
  | [] => [t]
  | u :: rest =>
    if t.createdAt ≤ u.createdAt then t :: u :: rest else u :: insertByCreation t rest

/-- Stable ordering by creation time, oldest first. -/
def sortByCreation : List LoadTest → List LoadTest
  | [] => []
  | t :: rest => insertByCreation t (sortByCreation rest)

/-- Modelled from the spec: `List(pageToken, limit)` of section 4.5, the
handler behind `proxyHandler.List`: the limit is clamped to the configured
maximum, the items are ordered by creation time, and the page starts at the
page token. -/
def Proxy.serveList (p : Proxy) (cl : Cluster) (pageToken limit : Nat) :
    List LoadTest × Option Nat :=
  let lim := min limit p.maxListLimit
  let items := sortByCreation cl.loadTests
  ((items.drop pageToken).take lim,
    if pageToken + lim < items.length then some (pageToken + lim) else none)

/-! ## Sample inputs -/

/-- A sample configuration. -/
def sampleConfig : Config :=
  { MaxLoadTestsRun := 1, MaxListLimit := 2, AllowedCustomImages := ["registry/allowed"],
    OpenAPI := ⟨0⟩, HTTPPort := 8080, WorkerCountBounds := [("fake", 1, 5)],
    SchedulingGraceWindow := 30, RunDeadline := 600 }

/-- The sample configuration with other worker-count bounds, grace window
and run deadline. -/
def sampleConfigOther : Config :=
  { sampleConfig with
    WorkerCountBounds := [("fake", 2, 9)], SchedulingGraceWindow := 45, RunDeadline := 900 }

/-- A sample runner. -/
def sampleRunner : Runner :=
  { Exporter := ⟨1⟩, KubeClient := ⟨2⟩, Logger := ⟨3⟩, StatsReporter := ⟨4⟩ }

/-- A sample environment: the `fake` backend with worker range 1 to 5, and a
server that stops with an error. -/
def sampleEnv : Env :=
  { compiled := [⟨"fake", 1, 5⟩], serveResult := some (.plain "listen tcp :8080: bind failed") }

/-- A sample request for the `fake` backend with one worker. -/
def sampleSpec : LoadTestSpec :=
  { backendType := "fake", workers := 1, script := "script", imageOverride := none, tags := [] }

/-- A cluster without load tests. -/
def emptyCluster : Cluster := { loadTests := [], nextId := 0, now := 0 }

/-- A cluster with one pending load test. -/
def busyCluster : Cluster :=
  { loadTests := [⟨0, sampleSpec, .Pending, 0⟩], nextId := 1, now := 5 }

/-! ## Running the body -/

theorem built_eq (cfg : Config) (rr : Runner) (env : Env) :
    built cfg rr env = some
      { registries := [backends.New env.compiled [.WithLogger rr.Logger]]
        registry := 0
        proxyHandler := builtProxy cfg rr
        r := { middlewares := [.RequestID, .RealIP, .Logger rr.Logger, .RequestLogger, .Recovery,
                 .SetContentTypeJSON, .OpenAPISpecCORS cfg.OpenAPI]
               routes := builtRoutes cfg rr } } := by
  rfl

/-! ## Splitting paths -/

theorem splitSlash_ne_nil (l : List Char) : splitSlash l ≠ [] := by
  cases l with
  | nil => simp [splitSlash]
  | cons c cs =>
    unfold splitSlash
    split_ifs
    · simp
    · split <;> simp

theorem splitSlash_noslash (a : List Char) (h : '/' ∉ a) : splitSlash a = [a] := by
  induction a with
  | nil => rfl
  | cons c cs ih =>
    simp only [List.mem_cons, not_or] at h
    have hc : c ≠ '/' := fun e => h.1 e.symm
    simp [splitSlash, hc, ih h.2]

theorem splitSlash_append (a r : List Char) (h : '/' ∉ a) :
    splitSlash (a ++ '/' :: r) = a :: splitSlash r := by
  induction a with
  | nil => simp [splitSlash]
  | cons c cs ih =>
    simp only [List.mem_cons, not_or] at h
    have hc : c ≠ '/' := fun e => h.1 e.symm
    simp [splitSlash, hc, ih h.2]

theorem splitSlash_length (l : List Char) : (splitSlash l).length = l.count '/' + 1 := by
  induction l with
  | nil => rfl
  | cons c cs ih =>
    unfold splitSlash
    by_cases hc : c = '/'
    · subst hc; simp [ih]
    · have hne : splitSlash cs ≠ [] := splitSlash_ne_nil cs
      rw [if_neg hc]
      cases hs : splitSlash cs with
      | nil => exact absurd hs hne
      | cons s ss =>
        rw [hs] at ih
        simp only [List.length_cons] at ih ⊢
        rw [List.count_cons_of_ne (Ne.symm hc)]
        exact ih

theorem matchPattern_segs (pattern path : String) (ps : List Seg) (xs : List (List Char))
    (hp : parsePattern pattern = some ps) (hx : pathSegs path = some xs) :
    matchPattern pattern path = matchSegs ps xs := by
  simp [matchPattern, hp, hx]

/-! ## The parsed patterns of the route table -/

theorem parse_status : parsePattern "/status" = some [.lit "status".data] := by decide
theorem parse_metrics : parsePattern "/metrics" = some [.lit "metrics".data] := by decide
theorem parse_loadtest : parsePattern "/load-test" = some [.lit "load-test".data] := by decide
theorem parse_loadtest_id :
    parsePattern "/load-test/{id}" = some [.lit "load-test".data, .param "id".data] := by decide
theorem parse_root : parsePattern "/" = some [.lit []] := by decide
theorem parse_openapi : parsePattern "/openapi" = some [.lit "openapi".data] := by decide
theorem parse_logs : parsePattern "/load-test/{id}/logs" =
    some [.lit "load-test".data, .param "id".data, .lit "logs".data] := by decide
theorem parse_logs_worker : parsePattern "/load-test/{id}/logs/{worker}" =
    some [.lit "load-test".data, .param "id".data, .lit "logs".data, .param "worker".data] := by
  decide
theorem parse_report : parsePattern "/load-test/{id}/report" =
    some [.lit "load-test".data, .param "id".data, .lit "report".data] := by decide
theorem parse_report_wild : parsePattern "/load-test/{id}/report/*" =
    some [.lit "load-test".data, .param "id".data, .lit "report".data, .wild] := by decide

/-- Dispatch on the route table of `RunServer`, by path segments. -/
theorem dispatch_built (cfg : Config) (rr : Runner) (mws : List Middleware) (m : Method)
    (path : String) (xs : List (List Char)) (hx : pathSegs path = some xs) :
    Router.dispatch { middlewares := mws, routes := builtRoutes cfg rr } m path =
      (builtSegs cfg rr).findSome?
        (fun e => if e.1.accepts m then (matchSegs e.2.1 xs).map (fun bs => (e.2.2, bs))
          else none) := by
  simp only [Router.dispatch, builtRoutes, builtSegs, List.findSome?,
    matchPattern_segs _ _ _ _ parse_status hx, matchPattern_segs _ _ _ _ parse_metrics hx,
    matchPattern_segs _ _ _ _ parse_loadtest hx, matchPattern_segs _ _ _ _ parse_loadtest_id hx,
    matchPattern_segs _ _ _ _ parse_root hx, matchPattern_segs _ _ _ _ parse_openapi hx,
    matchPattern_segs _ _ _ _ parse_logs hx, matchPattern_segs _ _ _ _ parse_logs_worker hx,
    matchPattern_segs _ _ _ _ parse_report hx, matchPattern_segs _ _ _ _ parse_report_wild hx]

/-! ## Paths of the load-test routes -/

theorem pathSegs_of_data (p : String) (l : List Char) (h : p.data = '/' :: l) :
    pathSegs p = some (splitSlash l) := by
  simp [pathSegs, h]

theorem segs_loadtest : pathSegs "/load-test" = some ["load-test".data] := by decide

theorem segs_loadtest_id (id : String) (hid : IsSegment id) :
    pathSegs ("/load-test/" ++ id) = some ["load-test".data, id.data] := by
  have h : ("/load-test/" ++ id).data = '/' :: ("load-test".data ++ '/' :: id.data) := by
    rw [String.data_append]; rfl
  rw [pathSegs_of_data _ _ h, splitSlash_append _ _ (by decide), splitSlash_noslash _ hid.2]

theorem segs_logs (id : String) (hid : IsSegment id) :
    pathSegs ("/load-test/" ++ id ++ "/logs") =
      some ["load-test".data, id.data, "logs".data] := by
  have h : ("/load-test/" ++ id ++ "/logs").data =
      '/' :: ("load-test".data ++ '/' :: (id.data ++ '/' :: "logs".data)) := by
    rw [String.data_append, String.data_append, List.append_assoc]; rfl
  rw [pathSegs_of_data _ _ h, splitSlash_append _ _ (by decide), splitSlash_append _ _ hid.2,
    splitSlash_noslash _ (by decide)]

theorem segs_logs_worker (id worker : String) (hid : IsSegment id) (hw : IsSegment worker) :
    pathSegs ("/load-test/" ++ id ++ "/logs/" ++ worker) =
      some ["load-test".data, id.data, "logs".data, worker.data] := by
  have h : ("/load-test/" ++ id ++ "/logs/" ++ worker).data =
      '/' :: ("load-test".data ++
        '/' :: (id.data ++ '/' :: ("logs".data ++ '/' :: worker.data))) := by
    rw [String.data_append, String.data_append, String.data_append, List.append_assoc,
      List.append_assoc]
    rfl
  rw [pathSegs_of_data _ _ h, splitSlash_append _ _ (by decide), splitSlash_append _ _ hid.2,
    splitSlash_append _ _ (by decide), splitSlash_noslash _ hw.2]

theorem segs_report (id : String) (hid : IsSegment id) :
    pathSegs ("/load-test/" ++ id ++ "/report") =
      some ["load-test".data, id.data, "report".data] := by
  have h : ("/load-test/" ++ id ++ "/report").data =
      '/' :: ("load-test".data ++ '/' :: (id.data ++ '/' :: "report".data)) := by
    rw [String.data_append, String.data_append, List.append_assoc]; rfl
  rw [pathSegs_of_data _ _ h, splitSlash_append _ _ (by decide), splitSlash_append _ _ hid.2,
    splitSlash_noslash _ (by decide)]

theorem segs_report_slash (id : String) (hid : IsSegment id) :
    pathSegs ("/load-test/" ++ id ++ "/report" ++ "/") =
      some ["load-test".data, id.data, "report".data, []] := by
  have h : ("/load-test/" ++ id ++ "/report" ++ "/").data =
      '/' :: ("load-test".data ++ '/' :: (id.data ++ '/' :: ("report".data ++ '/' :: []))) := by
    rw [String.data_append, String.data_append, String.data_append, List.append_assoc,
      List.append_assoc]
    rfl
  rw [pathSegs_of_data _ _ h, splitSlash_append _ _ (by decide), splitSlash_append _ _ hid.2,
    splitSlash_append _ _ (by decide)]
  rfl

theorem methodsOn_built (cfg : Config) (rr : Runner) (mws : List Middleware) :
    Router.methodsOn { middlewares := mws, routes := builtRoutes cfg rr } "/load-test" =
        [.GET, .POST] ∧
      Router.methodsOn { middlewares := mws, routes := builtRoutes cfg rr } "/load-test/{id}" =
        [.GET, .DELETE] := by
  constructor <;>
    simp [Router.methodsOn, builtRoutes, List.filter, MethodSpec.expand]

/-! ## The routes of the facade -/

/-- C1. In the route table `RunServer` builds, `GET /load-test` is dispatched
to `proxyHandler.List`, `POST /load-test` to `proxyHandler.Create`,
`GET /load-test/{id}` to `proxyHandler.Get` and `DELETE /load-test/{id}` to
`proxyHandler.Delete` (each under its `otelhttp` wrapper), for every value of
the id segment, which is bound to the parameter `id`; the methods registered on
the pattern `/load-test` are exactly GET and POST, and those on
`/load-test/{id}` exactly GET and DELETE. -/
theorem crud_routes_dispatch (cfg : Config) (rr : Runner) (env : Env) (id : String)
    (hid : IsSegment id) :
    ∃ b, built cfg rr env = some b ∧
      b.r.dispatch .GET "/load-test" =
        some (.otelhttp (.proxyMethod b.proxyHandler .List) "/load-test", []) ∧
      b.r.dispatch .POST "/load-test" =
        some (.otelhttp (.proxyMethod b.proxyHandler .Create) "/load-test", []) ∧
      b.r.dispatch .GET ("/load-test/" ++ id) =
        some (.otelhttp (.proxyMethod b.proxyHandler .Get) "/load-test/{id}", [("id", id)]) ∧
      b.r.dispatch .DELETE ("/load-test/" ++ id) =
        some (.otelhttp (.proxyMethod b.proxyHandler .Delete) "/load-test/{id}", [("id", id)]) ∧
      b.r.methodsOn "/load-test" = [.GET, .POST] ∧
      b.r.methodsOn "/load-test/{id}" = [.GET, .DELETE] := by
  refine ⟨_, built_eq cfg rr env, ?_, ?_, ?_, ?_, methodsOn_built cfg rr _⟩
  · rw [dispatch_built _ _ _ _ _ _ segs_loadtest]
    simp [builtSegs, List.findSome?, MethodSpec.accepts, matchSegs]
  · rw [dispatch_built _ _ _ _ _ _ segs_loadtest]
    simp [builtSegs, List.findSome?, MethodSpec.accepts, matchSegs]
  · rw [dispatch_built _ _ _ _ _ _ (segs_loadtest_id id hid)]
    simp [builtSegs, List.findSome?, MethodSpec.accepts, matchSegs, hid.1]
  · rw [dispatch_built _ _ _ _ _ _ (segs_loadtest_id id hid)]
    simp [builtSegs, List.findSome?, MethodSpec.accepts, matchSegs, hid.1]

/-- C3. Both log routes are dispatched to the same method value
`proxyHandler.GetLogs`: `GET /load-test/{id}/logs` with only `id` bound (no
`worker` parameter), and `GET /load-test/{id}/logs/{worker}` with `worker`
bound to the last path segment, for every id and worker segment. -/
theorem logs_routes_dispatch (cfg : Config) (rr : Runner) (env : Env) (id worker : String)
    (hid : IsSegment id) (hw : IsSegment worker) :
    ∃ b, built cfg rr env = some b ∧
      b.r.dispatch .GET ("/load-test/" ++ id ++ "/logs") =
        some (.proxyMethod b.proxyHandler .GetLogs, [("id", id)]) ∧
      List.lookup "worker" [("id", id)] = none ∧
      b.r.dispatch .GET ("/load-test/" ++ id ++ "/logs/" ++ worker) =
        some (.proxyMethod b.proxyHandler .GetLogs, [("id", id), ("worker", worker)]) ∧
      List.lookup "worker" [("id", id), ("worker", worker)] = some worker := by
  refine ⟨_, built_eq cfg rr env, ?_, ?_, ?_, ?_⟩
  · rw [dispatch_built _ _ _ _ _ _ (segs_logs id hid)]
    simp [builtSegs, List.findSome?, MethodSpec.accepts, matchSegs, hid.1]
  · simp [List.lookup]
  · rw [dispatch_built _ _ _ _ _ _ (segs_logs_worker id worker hid hw)]
    simp [builtSegs, List.findSome?, MethodSpec.accepts, matchSegs, hid.1, hw.1]
  · simp [List.lookup]

/-! ## The redirect of the report route -/

theorem cutAt_not_mem (sep : Char) (l : List Char) (h : sep ∉ l) : cutAt sep l = (l, []) := by
  induction l with
  | nil => rfl
  | cons c cs ih =>
    simp only [List.mem_cons, not_or] at h
    have hc : c ≠ sep := fun e => h.1 e.symm
    simp [cutAt, hc, ih h.2]

theorem hexEscapeNonASCII_ascii (l : List Char)
    (h : l.all (fun c => decide (c.toNat < 128)) = true) : hexEscapeNonASCII l = l := by
  induction l with
  | nil => rfl
  | cons c cs ih =>
    simp only [List.all_cons, Bool.and_eq_true, decide_eq_true_eq] at h
    have ih' := ih h.2
    unfold hexEscapeNonASCII at ih' ⊢
    simp [List.flatMap_cons, h.1, ih']

theorem isUnreserved_ascii (c : Char) (h : isUnreserved c = true) :
    c.toNat < 128 ∧ c ≠ '/' ∧ c ≠ '?' := by
  simp only [isUnreserved, Bool.or_eq_true, Bool.and_eq_true, decide_eq_true_eq] at h
  refine ⟨by omega, ?_, ?_⟩
  · intro e
    subst e
    revert h
    decide
  · intro e
    subst e
    revert h
    decide

theorem plain_segment (id : String) (hid : IsPlainSegment id) :
    IsSegment id ∧ '?' ∉ id.data ∧ id.data.all (fun c => decide (c.toNat < 128)) = true := by
  obtain ⟨hne, hall, -, -⟩ := hid
  rw [List.all_eq_true] at hall
  refine ⟨⟨hne, fun hm => (isUnreserved_ascii _ (hall _ hm)).2.1 rfl⟩,
    fun hm => (isUnreserved_ascii _ (hall _ hm)).2.2 rfl, ?_⟩
  rw [List.all_eq_true]
  intro c hc
  simpa using (isUnreserved_ascii c (hall c hc)).1

/-- On the path of a report route with a plain id, followed by a slash,
`http.Redirect` answers with that same text. -/
theorem Redirect_report_slash (u : URL) (id : String) (hid : IsPlainSegment id) (code : Nat) :
    Redirect u ("/load-test/" ++ id ++ "/report" ++ "/") code =
      ⟨code, "/load-test/" ++ id ++ "/report" ++ "/"⟩ := by
  obtain ⟨hseg, hq, hascii⟩ := plain_segment id hid
  have hdata : ("/load-test/" ++ id ++ "/report" ++ "/").data =
      '/' :: ("load-test".data ++ '/' :: (id.data ++ '/' :: ("report".data ++ '/' :: []))) := by
    rw [String.data_append, String.data_append, String.data_append, List.append_assoc,
      List.append_assoc]
    rfl
  have hesc : hexEscapeNonASCII
      ('/' :: ("load-test".data ++ '/' :: (id.data ++ '/' :: ("report".data ++ '/' :: [])))) =
      '/' :: ("load-test".data ++ '/' :: (id.data ++ '/' :: ("report".data ++ '/' :: []))) := by
    apply hexEscapeNonASCII_ascii
    simp only [List.all_cons, List.all_append, hascii]
    decide
  have hloc : String.mk
      ('/' :: ("load-test".data ++ '/' :: (id.data ++ '/' :: ("report".data ++ '/' :: [])))) =
      "/load-test/" ++ id ++ "/report" ++ "/" := by
    rw [← hdata]
  unfold Redirect
  by_cases hrel : relativeRef ("/load-test/" ++ id ++ "/report" ++ "/") = true
  · have hcut : cutAt '?'
        ('/' :: ("load-test".data ++ '/' :: (id.data ++ '/' :: ("report".data ++ '/' :: [])))) =
        ('/' :: ("load-test".data ++ '/' :: (id.data ++ '/' :: ("report".data ++ '/' :: []))),
          []) := by
      apply cutAt_not_mem
      simp only [List.mem_cons, List.mem_append, not_or]
      refine ⟨by decide, ⟨by decide, by decide, hq, by decide, by decide, by decide, ?_⟩⟩
      simp
    have hsplit : splitSlash
        ('/' :: ("load-test".data ++ '/' :: (id.data ++ '/' :: ("report".data ++ '/' :: [])))) =
        [[], "load-test".data, id.data, "report".data, []] := by
      have h0 := splitSlash_append []
        ("load-test".data ++ '/' :: (id.data ++ '/' :: ("report".data ++ '/' :: []))) (by simp)
      rw [List.nil_append] at h0
      rw [h0, splitSlash_append _ _ (by decide), splitSlash_append _ _ hseg.2,
        splitSlash_append _ _ (by decide)]
      rfl
    have hclean : pathClean
        ('/' :: ("load-test".data ++ '/' :: (id.data ++ '/' :: ("report".data ++ '/' :: [])))) =
        '/' :: ("load-test".data ++ '/' :: (id.data ++ '/' :: "report".data)) := by
      simp only [pathClean, if_true, hsplit]
      simp [cleanSegs, hid.1, hid.2.2.1, hid.2.2.2, joinSegs]
    have hcat : '/' :: ("load-test".data ++ '/' :: (id.data ++ '/' :: "report".data)) ++ ['/'] =
        '/' :: ("load-test".data ++ '/' :: (id.data ++ '/' :: ("report".data ++ '/' :: []))) := by
      simp
    have hl1 : ('/' :: ("load-test".data ++
        '/' :: (id.data ++ '/' :: ("report".data ++ '/' :: [])))).getLast? = some '/' := by
      rw [← hcat, List.getLast?_append]
      rfl
    have hl2 : ('/' :: ("load-test".data ++
        '/' :: (id.data ++ '/' :: "report".data))).getLast? ≠ some '/' := by
      have h : '/' :: ("load-test".data ++ '/' :: (id.data ++ '/' :: "report".data)) =
          ('/' :: ("load-test".data ++ '/' :: (id.data ++ '/' :: "repor".data))) ++ ['t'] := by
        simp
      rw [h, List.getLast?_append]
      simp
    simp only [hrel, if_true, hdata, hcut, hclean]
    rw [if_pos ⟨hl1, hl2⟩, hcat, List.append_nil, hesc, hloc]
  · simp only [hrel, Bool.false_eq_true, if_false, hdata, hesc, hloc]

theorem routePath_decoded (host path : String) (h : path.data ≠ []) :
    routePath ⟨host, path, ""⟩ = path := by
  have hne : path ≠ "" := fun e => h (by rw [e])
  simp [routePath, hne]

theorem report_path_data (id : String) (sfx : String) :
    ("/load-test/" ++ id ++ sfx).data ≠ [] := by
  rw [String.data_append, String.data_append]
  intro h
  have h' := congrArg List.length h
  simp at h'

/-- C8, as the code has it. A `GET` request whose URL has an empty host and no
`RawPath` and whose path is `/load-test/{id}/report`, with an id of unreserved
URL characters other than `.` and `..`, is dispatched to the redirect closure;
the closure answers 301 with `Location` equal to the request path plus `/`;
that target matches `/load-test/{id}/report/*` with the same id, and a `GET`
of it is dispatched to `report.ShowHandler()`. For every request the closure
answers 301. -/
theorem report_redirect_target (cfg : Config) (rr : Runner) (env : Env) (id : String)
    (hid : IsPlainSegment id) :
    ∃ b, built cfg rr env = some b ∧
      b.r.dispatch .GET (routePath ⟨"", "/load-test/" ++ id ++ "/report", ""⟩) =
        some (.reportRedirect, [("id", id)]) ∧
      reportRedirect ⟨"", "/load-test/" ++ id ++ "/report", ""⟩ =
        ⟨301, "/load-test/" ++ id ++ "/report" ++ "/"⟩ ∧
      matchPattern "/load-test/{id}/report/*" (reportRedirect ⟨"", "/load-test/" ++ id ++ "/report", ""⟩).Location =
        some [("id", id), ("*", "")] ∧
      b.r.dispatch .GET (routePath ⟨"", (reportRedirect ⟨"", "/load-test/" ++ id ++ "/report", ""⟩).Location, ""⟩) =
        some (.reportShowHandler, [("id", id), ("*", "")]) ∧
      (∀ u : URL, (reportRedirect u).code = 301) := by
  have hseg : IsSegment id := (plain_segment id hid).1
  have hred : reportRedirect ⟨"", "/load-test/" ++ id ++ "/report", ""⟩ =
      ⟨301, "/load-test/" ++ id ++ "/report" ++ "/"⟩ := by
    have htarget : ("" ++ ("/load-test/" ++ id ++ "/report")) ++ "/" =
        "/load-test/" ++ id ++ "/report" ++ "/" := by
      rw [String.empty_append]
    unfold reportRedirect
    simp only [htarget]
    exact Redirect_report_slash _ id hid _
  have hroute : routePath ⟨"", "/load-test/" ++ id ++ "/report", ""⟩ = "/load-test/" ++ id ++ "/report" :=
    routePath_decoded _ _ (report_path_data id "/report")
  have hfollow : routePath ⟨"", "/load-test/" ++ id ++ "/report" ++ "/", ""⟩ =
      "/load-test/" ++ id ++ "/report" ++ "/" := by
    apply routePath_decoded
    rw [String.data_append]
    intro h
    have h' := congrArg List.length h
    simp at h'
  refine ⟨_, built_eq cfg rr env, ?_, hred, ?_, ?_, fun _ => rfl⟩
  · rw [hroute, dispatch_built _ _ _ _ _ _ (segs_report id hseg)]
    simp [builtSegs, List.findSome?, MethodSpec.accepts, matchSegs, hseg.1]
  · rw [hred, matchPattern_segs _ _ _ _ parse_report_wild (segs_report_slash id hseg)]
    simp [matchSegs, hseg.1, joinSegs]
  · rw [hred, hfollow, dispatch_built _ _ _ _ _ _ (segs_report_slash id hseg)]
    simp [builtSegs, List.findSome?, MethodSpec.accepts, matchSegs, hseg.1, joinSegs]

/-- C8 at sample inputs: the id `abc`. -/
theorem report_redirect_target_witness :
    IsPlainSegment "abc" ∧
      ∃ b, built sampleConfig sampleRunner sampleEnv = some b ∧
        b.r.dispatch .GET (routePath ⟨"", "/load-test/" ++ "abc" ++ "/report", ""⟩) =
          some (.reportRedirect, [("id", "abc")]) ∧
        reportRedirect ⟨"", "/load-test/" ++ "abc" ++ "/report", ""⟩ =
          ⟨301, "/load-test/abc/report/"⟩ ∧
        b.r.dispatch .GET "/load-test/abc/report/" =
          some (.reportShowHandler, [("id", "abc"), ("*", "")]) := by
  refine ⟨by decide, ?_⟩
  obtain ⟨b, hb, hdisp, hred, _, hshow, _⟩ :=
    report_redirect_target sampleConfig sampleRunner sampleEnv "abc" (by decide)
  rw [hred] at hshow
  exact ⟨b, hb, hdisp, hred, hshow⟩

/-- C8, refuted as stated. With the encoded slash of the id `a%2Fb` the router
matches the encoded path while the closure reads the decoded one: the
redirect goes to `/load-test/a/b/report/`, which no route answers. With the id
`..` the cleaned target is `/report/`, not the request path plus `/`, and no
route answers it. With the host `example.com` the target has no scheme, so
it is resolved against the request path and differs from host, path
and `/`. -/
theorem report_redirect_refuted :
    ∃ b, built sampleConfig sampleRunner sampleEnv = some b ∧
      b.r.dispatch .GET (routePath ⟨"", "/load-test/a/b/report", "/load-test/a%2Fb/report"⟩) =
        some (.reportRedirect, [("id", "a%2Fb")]) ∧
      reportRedirect ⟨"", "/load-test/a/b/report", "/load-test/a%2Fb/report"⟩ =
        ⟨301, "/load-test/a/b/report/"⟩ ∧
      b.r.dispatch .GET (routePath ⟨"", "/load-test/a/b/report/", ""⟩) = none ∧
      b.r.dispatch .GET (routePath ⟨"", "/load-test/../report", ""⟩) =
        some (.reportRedirect, [("id", "..")]) ∧
      reportRedirect ⟨"", "/load-test/../report", ""⟩ = ⟨301, "/report/"⟩ ∧
      b.r.dispatch .GET (routePath ⟨"", "/report/", ""⟩) = none ∧
      b.r.dispatch .GET (routePath ⟨"example.com", "/load-test/x/report", ""⟩) =
        some (.reportRedirect, [("id", "x")]) ∧
      reportRedirect ⟨"example.com", "/load-test/x/report", ""⟩ =
        ⟨301, "/load-test/x/example.com/load-test/x/report/"⟩ := by
  refine ⟨_, built_eq _ _ _, ?_, ?_, ?_, ?_, ?_, ?_, ?_, ?_⟩ <;> decide

/-! ## Unambiguity of the route table -/

theorem matches_none (rt : Route) (m : Method) (path : String) (h : pathSegs path = none) :
    rt.matches m path = false := by
  simp only [Route.matches, matchPattern, h]
  cases parsePattern rt.pattern <;> simp

/-- The routes of the table that answer a request, by path segments. -/
theorem matching_built (cfg : Config) (rr : Runner) (m : Method) (path : String)
    (xs : List (List Char)) (hx : pathSegs path = some xs) :
    ((builtRoutes cfg rr).filter (fun rt => rt.matches m path)).length =
      (builtSegs cfg rr).countP (fun e => e.1.accepts m && (matchSegs e.2.1 xs).isSome) := by
  rw [← List.countP_eq_length_filter]
  simp only [builtRoutes, builtSegs, List.countP_cons, List.countP_nil, Route.matches,
    matchPattern_segs _ _ _ _ parse_status hx, matchPattern_segs _ _ _ _ parse_metrics hx,
    matchPattern_segs _ _ _ _ parse_loadtest hx, matchPattern_segs _ _ _ _ parse_loadtest_id hx,
    matchPattern_segs _ _ _ _ parse_root hx, matchPattern_segs _ _ _ _ parse_openapi hx,
    matchPattern_segs _ _ _ _ parse_logs hx, matchPattern_segs _ _ _ _ parse_logs_worker hx,
    matchPattern_segs _ _ _ _ parse_report hx, matchPattern_segs _ _ _ _ parse_report_wild hx]

theorem matching_segs_le_one (cfg : Config) (rr : Runner) (m : Method)
    (xs : List (List Char)) :
      (builtSegs cfg rr).countP (fun e => e.1.accepts m && (matchSegs e.2.1 xs).isSome) ≤ 1 := by
  simp only [builtSegs, List.countP_cons, List.countP_nil]
  match xs with
  | [] => simp [matchSegs]
  | [a] =>
    simp only [matchSegs]
    cases m <;> simp [MethodSpec.accepts] <;> split_ifs <;> simp_all
  | [a, b] =>
    simp only [matchSegs]
    cases m <;> simp [MethodSpec.accepts] <;> split_ifs <;> simp_all
  | [a, b, c] =>
    simp only [matchSegs]
    cases m <;> simp [MethodSpec.accepts] <;> split_ifs <;> simp_all
  | [a, b, c, d] =>
    simp only [matchSegs]
    cases m <;> simp [MethodSpec.accepts]
    split_ifs <;> simp_all
  | a :: b :: c :: d :: e :: t =>
    simp only [matchSegs]
    cases m <;> simp [MethodSpec.accepts]
    split_ifs <;> simp_all

theorem registrations_built (cfg : Config) (rr : Runner) (mws : List Middleware) :
    (Router.registrations { middlewares := mws, routes := builtRoutes cfg rr }).Nodup := by
  simp only [Router.registrations, builtRoutes, List.flatMap_cons, List.flatMap_nil,
    MethodSpec.expand, List.map_cons, List.map_nil, List.cons_append, List.nil_append,
    List.append_nil]
  decide

theorem matchSegs_two (s n : List Char) (xs : List (List Char)) (bs : Params)
    (h : matchSegs [.lit s, .param n] xs = some bs) : xs.length = 2 := by
  match xs with
  | [] => simp [matchSegs] at h
  | [a] => simp [matchSegs] at h
  | [a, b] => rfl
  | a :: b :: c :: t => simp [matchSegs] at h

/-- A request dispatched to the `Get` handler has exactly two path segments. -/
theorem dispatch_get_segs (cfg : Config) (rr : Runner) (mws : List Middleware) (m : Method)
    (path : String) (xs : List (List Char)) (bs : Params) (hx : pathSegs path = some xs)
    (h : Router.dispatch { middlewares := mws, routes := builtRoutes cfg rr } m path =
      some (.otelhttp (.proxyMethod (builtProxy cfg rr) .Get) "/load-test/{id}", bs)) :
    xs.length = 2 := by
  rw [dispatch_built _ _ _ _ _ _ hx] at h
  obtain ⟨e, he, hf⟩ := List.exists_of_findSome?_eq_some h
  simp only [builtSegs, List.mem_cons, List.mem_singleton, List.not_mem_nil, or_false] at he
  rcases he with he | he | he | he | he | he | he | he | he | he | he | he | he <;>
    subst he <;> simp only [] at hf <;> split_ifs at hf <;>
    simp only [Option.map_eq_some', Prod.mk.injEq] at hf <;>
    obtain ⟨bs', hbs, hh, -⟩ := hf <;>
    first
      | exact matchSegs_two _ _ _ _ hbs
      | (exact absurd hh (by simp))

theorem segs_under (id mid rest : String) (tl : List Char) (hmid : mid.data = '/' :: tl) :
    ∃ xs, pathSegs ("/load-test/" ++ id ++ mid ++ rest) = some xs ∧ 3 ≤ xs.length := by
  have h : ("/load-test/" ++ id ++ mid ++ rest).data =
      '/' :: ("load-test".data ++ '/' :: (id.data ++ '/' :: (tl ++ rest.data))) := by
    rw [String.data_append, String.data_append, String.data_append, hmid]
    simp only [List.append_assoc, List.cons_append]
    rfl
  refine ⟨_, pathSegs_of_data _ _ h, ?_⟩
  rw [splitSlash_length]
  simp only [List.count_append, List.count_cons_self]
  omega

/-- C9, as the code has it. The route table `RunServer` builds is
unambiguous: its (method, pattern) registrations are pairwise distinct; for
every method and every request path at most one route answers, where `{name}`
matches exactly one path segment, an empty one only when a slash follows it,
and a trailing `*` any remainder; and no path that continues
`/load-test/{id}/logs` or `/load-test/{id}/report` is dispatched to the `Get`
handler of `/load-test/{id}`, whatever the method. -/
theorem route_table_unambiguous (cfg : Config) (rr : Runner) (env : Env) :
    ∃ b, built cfg rr env = some b ∧
      b.r.registrations.Nodup ∧
      (∀ (m : Method) (path : String),
        (b.r.routes.filter (fun rt => rt.matches m path)).length ≤ 1) ∧
      (∀ (m : Method) (id rest : String) (bs : Params),
        b.r.dispatch m ("/load-test/" ++ id ++ "/logs" ++ rest) ≠
          some (.otelhttp (.proxyMethod b.proxyHandler .Get) "/load-test/{id}", bs)) ∧
      (∀ (m : Method) (id rest : String) (bs : Params),
        b.r.dispatch m ("/load-test/" ++ id ++ "/report" ++ rest) ≠
          some (.otelhttp (.proxyMethod b.proxyHandler .Get) "/load-test/{id}", bs)) := by
  refine ⟨_, built_eq cfg rr env, registrations_built cfg rr _, ?_, ?_, ?_⟩
  · intro m path
    cases hx : pathSegs path with
    | none =>
      have h : (builtRoutes cfg rr).filter (fun rt => rt.matches m path) = [] := by
        rw [List.filter_eq_nil_iff]
        intro rt _
        simp [matches_none rt m path hx]
      simp [h]
    | some xs =>
      show ((builtRoutes cfg rr).filter (fun rt => rt.matches m path)).length ≤ 1
      rw [matching_built cfg rr m path xs hx]
      exact matching_segs_le_one cfg rr m xs
  · intro m id rest bs h
    obtain ⟨xs, hx, hlen⟩ := segs_under id "/logs" rest "logs".data rfl
    have := dispatch_get_segs cfg rr _ m _ xs bs hx h
    omega
  · intro m id rest bs h
    obtain ⟨xs, hx, hlen⟩ := segs_under id "/report" rest "report".data rfl
    have := dispatch_get_segs cfg rr _ m _ xs bs hx h
    omega

/-- C9, refuted as stated: `{id}` does not need a non-empty segment. The path
`/load-test//logs` matches `/load-test/{id}/logs` with the empty id and is
dispatched to `proxyHandler.GetLogs`, and `/load-test//report/` is dispatched
to `report.ShowHandler()`; only an empty segment that ends the path, as in
`/load-test/`, is refused. -/
theorem empty_segment_matched :
    ∃ b, built sampleConfig sampleRunner sampleEnv = some b ∧
      matchPattern "/load-test/{id}/logs" "/load-test//logs" = some [("id", "")] ∧
      b.r.dispatch .GET "/load-test//logs" =
        some (.proxyMethod b.proxyHandler .GetLogs, [("id", "")]) ∧
      b.r.dispatch .GET "/load-test//report/" =
        some (.reportShowHandler, [("id", ""), ("*", "")]) ∧
      b.r.dispatch .GET "/load-test/" = none := by
  refine ⟨_, built_eq _ _ _, ?_, ?_, ?_, ?_⟩ <;> decide

/-! ## The return value -/

/-- C7. `RunServer` returns a non-nil error exactly when `http.ListenAndServe`
returns a non-nil error `e`; the error returned then wraps `e` and its message
is `failed to run HTTP server: ` followed by the message of `e`; when
`http.ListenAndServe` returns nil, `RunServer` returns nil. -/
theorem RunServer_error_iff (cfg : Config) (rr : Runner) (compiled : List BackendDescriptor) :
    RunServer cfg rr ⟨compiled, none⟩ = some none ∧
      (∀ e : GoError, ∃ e', RunServer cfg rr ⟨compiled, some e⟩ = some (some e') ∧
        e'.Error = "failed to run HTTP server: " ++ e.Error ∧ e'.Unwrap = some e) ∧
      (∀ env : Env, (∃ e', RunServer cfg rr env = some (some e')) ↔
        ∃ e, env.serveResult = some e) := by
  refine ⟨rfl, fun e => ⟨_, rfl, rfl, rfl⟩, ?_⟩
  intro env
  have h : RunServer cfg rr env =
      some (match env.serveResult with
        | some e => some (GoError.wrapf "failed to run HTTP server: " e)
        | none => none) := rfl
  rw [h]
  cases env.serveResult <;> simp

/-! ## Configuration and the registry -/

/-- C5, as the code has it. Of the configuration, the maximum concurrent runs,
the maximum list page size and the allow-listed images reach the proxy handler
`RunServer` builds, unchanged; the registry it builds is `backends.New` with
the logger of the runner and holds no value of the configuration: every
configuration gives the same registry objects, and configurations that agree
on the five fields `RunServer` reads give the same handler, registry, and
router. -/
theorem config_values_consumed (cfg : Config) (rr : Runner) (env : Env) :
    ∃ b, built cfg rr env = some b ∧
      b.proxyHandler.maxLoadTestsRun = cfg.MaxLoadTestsRun ∧
      b.proxyHandler.maxListLimit = cfg.MaxListLimit ∧
      b.proxyHandler.allowedCustomImages = cfg.AllowedCustomImages ∧
      b.deref b.proxyHandler.registry =
        some (backends.New env.compiled [.WithLogger rr.Logger]) ∧
      (∀ cfg' : Config, ∃ b', built cfg' rr env = some b' ∧ b'.registries = b.registries) ∧
      (∀ bounds grace deadline,
        built { cfg with WorkerCountBounds := bounds, SchedulingGraceWindow := grace,
                         RunDeadline := deadline } rr env = some b) := by
  exact ⟨_, built_eq cfg rr env, rfl, rfl, rfl, rfl, fun cfg' => ⟨_, built_eq cfg' rr env, rfl⟩,
    fun _ _ _ => rfl⟩

/-- C5, refuted as stated: two configurations that differ in the worker-count
bounds, the scheduling grace window and the run deadline give the same
handler, registry and router, so none of these values reaches them. -/
theorem config_bounds_not_consumed :
    built sampleConfig sampleRunner sampleEnv = built sampleConfigOther sampleRunner sampleEnv ∧
      (built sampleConfig sampleRunner sampleEnv).isSome = true ∧
      sampleConfig.WorkerCountBounds ≠ sampleConfigOther.WorkerCountBounds ∧
      sampleConfig.SchedulingGraceWindow ≠ sampleConfigOther.SchedulingGraceWindow ∧
      sampleConfig.RunDeadline ≠ sampleConfigOther.RunDeadline := by
  refine ⟨rfl, rfl, ?_, ?_, ?_⟩ <;> decide

/-- C6. `RunServer` builds its registry once, before the handler, and never
changes it: no registry exists at entry; after the first statement
(`backends.New`) and after every later statement, through route setup,
`http.ListenAndServe` and the return, the only registry object is the one
`backends.New` returned and the variable `registry` refers to it; the handler
is unset after the first statement and from the second statement on it is the
`NewProxy` result holding that same reference; the body has one
`backends.New` statement and no `Register` statement. -/
theorem registry_built_once (cfg : Config) (rr : Runner) (env : Env) :
    (∃ st, stateAfter cfg rr env 0 = some st ∧ st.registries = [] ∧ st.registry = none) ∧
      (∃ st, stateAfter cfg rr env 1 = some st ∧ st.proxyHandler = none) ∧
      (∀ k : Nat, ∃ st, stateAfter cfg rr env (k + 1) = some st ∧
        st.registries = [backends.New env.compiled [.WithLogger rr.Logger]] ∧
        st.registry = some 0) ∧
      (∀ k : Nat, ∃ st p, stateAfter cfg rr env (k + 2) = some st ∧
        st.proxyHandler = some p ∧ some p.registry = st.registry) ∧
      (∀ k : Nat, stateAfter cfg rr env ((RunServerBody cfg rr).length + k) =
        finalState cfg rr env) ∧
      ((RunServerBody cfg rr).filter (fun s => match s with
        | .newRegistry _ => true
        | _ => false)).length = 1 ∧
      (∀ d, Stmt.register d ∉ RunServerBody cfg rr) := by
  refine ⟨⟨_, rfl, rfl, rfl⟩, ⟨_, rfl, rfl⟩, ?_, ?_, ?_, rfl, ?_⟩
  · intro k
    by_cases hk : k < 27
    · interval_cases k <;> exact ⟨_, rfl, rfl, rfl⟩
    · have h : stateAfter cfg rr env (k + 1) = finalState cfg rr env := by
        unfold stateAfter finalState
        rw [List.take_of_length_le]
        simp [RunServerBody]; omega
      rw [h]
      exact ⟨_, rfl, rfl, rfl⟩
  · intro k
    by_cases hk : k < 27
    · interval_cases k <;> exact ⟨_, _, rfl, rfl, rfl⟩
    · have h : stateAfter cfg rr env (k + 2) = finalState cfg rr env := by
        unfold stateAfter finalState
        rw [List.take_of_length_le]
        simp [RunServerBody]; omega
      rw [h]
      exact ⟨_, _, rfl, rfl, rfl⟩
  · intro k
    unfold stateAfter finalState
    rw [List.take_of_length_le (Nat.le_add_right _ k)]
  · intro d
    simp [RunServerBody]

/-! ## The limits handed to the handler -/

/-- C2. `POST /load-test` is dispatched to `proxyHandler.Create` of the proxy
built with `cfg.MaxLoadTestsRun`; for a request with no other validation
failure, `Create` fails with `CapacityExceeded` when the active count equals
`cfg.MaxLoadTestsRun` and succeeds, with phase `Pending`, when the active
count is below it. -/
theorem create_gated_by_run_limit (cfg : Config) (rr : Runner) (env : Env) (cl : Cluster)
    (spec : LoadTestSpec)
    (hvalid : otherwiseValid (backends.New env.compiled [.WithLogger rr.Logger])
      cfg.AllowedCustomImages spec = true) :
    ∃ b reg, built cfg rr env = some b ∧
      b.r.dispatch .POST "/load-test" =
        some (.otelhttp (.proxyMethod b.proxyHandler .Create) "/load-test", []) ∧
      b.proxyHandler.maxLoadTestsRun = cfg.MaxLoadTestsRun ∧
      b.deref b.proxyHandler.registry = some reg ∧
      (ActiveCount cl = cfg.MaxLoadTestsRun →
        b.proxyHandler.serveCreate reg cl spec = .error .CapacityExceeded) ∧
      (ActiveCount cl < cfg.MaxLoadTestsRun →
        ∃ cl' id, b.proxyHandler.serveCreate reg cl spec = .ok (cl', id, .Pending)) := by
  refine ⟨_, _, built_eq cfg rr env, ?_, rfl, rfl, ?_, ?_⟩
  · rw [dispatch_built _ _ _ _ _ _ segs_loadtest]
    simp [builtSegs, List.findSome?, MethodSpec.accepts, matchSegs]
  · intro hcount
    unfold otherwiseValid at hvalid
    cases hres : (backends.New env.compiled [.WithLogger rr.Logger]).Resolve spec.backendType with
    | none => simp [hres] at hvalid
    | some d =>
      simp only [hres, Bool.and_eq_true, decide_eq_true_eq] at hvalid
      obtain ⟨⟨⟨himg, _⟩, _⟩, _⟩ := hvalid
      simp [Proxy.serveCreate, Admission, hres, builtProxy, NewProxy, himg, hcount]
  · intro hcount
    unfold otherwiseValid at hvalid
    cases hres : (backends.New env.compiled [.WithLogger rr.Logger]).Resolve spec.backendType with
    | none => simp [hres] at hvalid
    | some d =>
      simp only [hres, Bool.and_eq_true, decide_eq_true_eq] at hvalid
      obtain ⟨⟨⟨himg, hmin⟩, hmax⟩, hscript⟩ := hvalid
      have hb :
          ¬ (spec.workers < d.minWorkers ∨ d.maxWorkers < spec.workers ∨ spec.script = "") := by
        rintro (h | h | h)
        · omega
        · omega
        · exact hscript h
      refine ⟨{ cl with
          loadTests := cl.loadTests ++ [⟨cl.nextId, spec, .Pending, cl.now⟩]
          nextId := cl.nextId + 1 }, cl.nextId, ?_⟩
      simp [Proxy.serveCreate, Admission, hres, builtProxy, NewProxy, himg, Build, hb,
        Nat.not_le.mpr hcount]

/-- C2 at sample inputs: with the `fake` backend and a limit of one run, a
valid request is rejected with `CapacityExceeded` while one load test is
pending, and accepted on an empty cluster. -/
theorem create_gated_by_run_limit_witness :
    otherwiseValid (backends.New sampleEnv.compiled [.WithLogger sampleRunner.Logger])
        sampleConfig.AllowedCustomImages sampleSpec = true ∧
      ActiveCount busyCluster = sampleConfig.MaxLoadTestsRun ∧
      ActiveCount emptyCluster < sampleConfig.MaxLoadTestsRun ∧
      (∃ b reg, built sampleConfig sampleRunner sampleEnv = some b ∧
        b.deref b.proxyHandler.registry = some reg ∧
        b.proxyHandler.serveCreate reg busyCluster sampleSpec = .error .CapacityExceeded) ∧
      (∃ b reg, built sampleConfig sampleRunner sampleEnv = some b ∧
        b.deref b.proxyHandler.registry = some reg ∧
        ∃ cl' id, b.proxyHandler.serveCreate reg emptyCluster sampleSpec =
          .ok (cl', id, .Pending)) := by
  refine ⟨by decide, by decide, by decide, ?_, ?_⟩
  · obtain ⟨b, reg, hb, _, _, hreg, hfull, _⟩ :=
      create_gated_by_run_limit sampleConfig sampleRunner sampleEnv busyCluster sampleSpec
        (by decide)
    exact ⟨b, reg, hb, hreg, hfull (by decide)⟩
  · obtain ⟨b, reg, hb, _, _, hreg, _, hfree⟩ :=
      create_gated_by_run_limit sampleConfig sampleRunner sampleEnv emptyCluster sampleSpec
        (by decide)
    exact ⟨b, reg, hb, hreg, hfree (by decide)⟩

/-- C4. `GET /load-test` is dispatched to `proxyHandler.List` of the proxy
built with `cfg.MaxListLimit`, and for every page token and every requested
limit the page `List` returns has at most `cfg.MaxListLimit` items, and at
most the requested number. -/
theorem list_bounded_by_max_limit (cfg : Config) (rr : Runner) (env : Env) (cl : Cluster)
    (pageToken limit : Nat) :
    ∃ b, built cfg rr env = some b ∧
      b.r.dispatch .GET "/load-test" =
        some (.otelhttp (.proxyMethod b.proxyHandler .List) "/load-test", []) ∧
      b.proxyHandler.maxListLimit = cfg.MaxListLimit ∧
      (b.proxyHandler.serveList cl pageToken limit).1.length ≤ cfg.MaxListLimit ∧
      (b.proxyHandler.serveList cl pageToken limit).1.length ≤ limit := by
  refine ⟨_, built_eq cfg rr env, ?_, rfl, ?_, ?_⟩
  · rw [dispatch_built _ _ _ _ _ _ segs_loadtest]
    simp [builtSegs, List.findSome?, MethodSpec.accepts, matchSegs]
  · simp only [Proxy.serveList, builtProxy, NewProxy, List.length_take]
    omega
  · simp only [Proxy.serveList, builtProxy, NewProxy, List.length_take]
    omega

/-! ## The theorems at sample inputs -/

/-- C1 at sample inputs: the id segment `abc`. -/
theorem crud_routes_dispatch_witness :
    IsSegment "abc" ∧
      ∃ b, built sampleConfig sampleRunner sampleEnv = some b ∧
        b.r.dispatch .GET ("/load-test/" ++ "abc") =
          some (.otelhttp (.proxyMethod b.proxyHandler .Get) "/load-test/{id}", [("id", "abc")]) ∧
        b.r.dispatch .DELETE ("/load-test/" ++ "abc") =
          some (.otelhttp (.proxyMethod b.proxyHandler .Delete) "/load-test/{id}",
            [("id", "abc")]) := by
  refine ⟨by decide, ?_⟩
  obtain ⟨b, hb, _, _, hget, hdel, _⟩ :=
    crud_routes_dispatch sampleConfig sampleRunner sampleEnv "abc" (by decide)
  exact ⟨b, hb, hget, hdel⟩

/-- C3 at sample inputs: the id segment `abc` and the worker segment `2`. -/
theorem logs_routes_dispatch_witness :
    IsSegment "abc" ∧ IsSegment "2" ∧
      ∃ b, built sampleConfig sampleRunner sampleEnv = some b ∧
        b.r.dispatch .GET ("/load-test/" ++ "abc" ++ "/logs") =
          some (.proxyMethod b.proxyHandler .GetLogs, [("id", "abc")]) ∧
        b.r.dispatch .GET ("/load-test/" ++ "abc" ++ "/logs/" ++ "2") =
          some (.proxyMethod b.proxyHandler .GetLogs, [("id", "abc"), ("worker", "2")]) := by
  refine ⟨by decide, by decide, ?_⟩
  obtain ⟨b, hb, hlogs, _, hworker, _⟩ :=
    logs_routes_dispatch sampleConfig sampleRunner sampleEnv "abc" "2" (by decide) (by decide)
  exact ⟨b, hb, hlogs, hworker⟩

end Kangal
